import Mathlib

/-!
Verification of the restlog buffer-and-flush engine (src/index.js).

The JavaScript source is shallowly embedded below:
  * strings are `List Char`;
  * JS numbers used by the code are `Nat` (sizes, counts, digits) or `Int`
    (millisecond timestamps, which get subtracted);
  * each embedded definition names the source lines it transcribes.
All definitions come first, then the theorems.
-/

namespace RestLog

/-- The decimal digit character for `n < 10` (JS number-to-string emits the
character of code `48 + n` for a single digit). -/
def digitChar (n : Nat) : Char := Char.ofNat (48 + n)

/-- Fuel-driven decimal rendering, most-significant digit first.  The fuel is
always at least the number of digits when called through `natToChars`. -/
def natDigitsAux : Nat → Nat → List Char
  | 0, _ => []
  | fuel + 1, n =>
    if n < 10 then [digitChar n]
    else natDigitsAux fuel (n / 10) ++ [digitChar (n % 10)]

/-- Decimal rendering of a natural number, as JS string conversion produces
for the non-negative integers returned by `getFullYear`, `getMonth() + 1`
and `getDate`. -/
def natToChars (n : Nat) : List Char := natDigitsAux (n + 1) n

/-- Model of `dateFormat` (src/index.js lines 46–56): the `Date` branch
returns the join of `getFullYear`, `getMonth() + 1` and `getDate` with `-`,
month and day not zero-padded.  (The non-`Date` branch, which returns the
empty string, is never reached from `saveLocal`, which always passes a fresh
`Date`.) -/
def dateFormat (year month day : Nat) : List Char :=
  natToChars year ++ '-' :: natToChars month ++ '-' :: natToChars day

/-- The buffer-file name built by `saveLocal` (src/index.js lines 274–284):
`dateFormat` of the current date followed by the extension `.log`. -/
def saveLocalFileName (year month day : Nat) : List Char :=
  dateFormat year month day ++ ['.', 'l', 'o', 'g']

/-- Consume `pat` literally from the front of `s`; `some rest` on success. -/
def dropLeading : List Char → List Char → Option (List Char)
  | [], s => some s
  | _ :: _, [] => none
  | p :: ps, c :: cs => if p = c then dropLeading ps cs else none

/-- The nonzero decimal digits, for the regex classes `[1-9]`. -/
def nonzeroDigits : List Char := ['1', '2', '3', '4', '5', '6', '7', '8', '9']

/-- All decimal digits, for the regex class `\d`. -/
def allDigits : List Char := '0' :: nonzeroDigits

/-- The alternatives of the month group `(0?[1-9]|1[0-2])` of the upload
pattern (src/index.js line 306), each as the literal characters it accepts. -/
def monthAlts : List (List Char) :=
  (nonzeroDigits.map fun c => [c]) ++ (nonzeroDigits.map fun c => ['0', c]) ++
    [['1', '0'], ['1', '1'], ['1', '2']]

/-- The alternatives of the day group `(0?[1-9]|[1-2]\d|3[0-1])` of the
upload pattern (src/index.js line 306). -/
def dayAlts : List (List Char) :=
  (nonzeroDigits.map fun c => [c]) ++ (nonzeroDigits.map fun c => ['0', c]) ++
    (allDigits.map fun c => ['1', c]) ++ (allDigits.map fun c => ['2', c]) ++
    [['3', '0'], ['3', '1']]

/-- The tail of the upload pattern after the day group: the dot before `log`
is NOT escaped in the source regex, so it accepts any single character, and
the `i` flag makes the three letters case-insensitive; then end of string. -/
def logTail (s : List Char) : Bool :=
  match s with
  | [_, l, o, g] =>
    (l == 'l' || l == 'L') && (o == 'o' || o == 'O') && (g == 'g' || g == 'G')
  | _ => false

/-- Matching of the day group followed by the tail, trying every alternative
of the group exactly as regex backtracking does. -/
def dayTailMatch (s : List Char) : Bool :=
  dayAlts.any fun d =>
    match dropLeading d s with
    | some rest => logTail rest
    | none => false

/-- Matching of the month group followed by a dash, the day group and the
tail. -/
def monthTailMatch (s : List Char) : Bool :=
  monthAlts.any fun m =>
    match dropLeading m s with
    | some ('-' :: rest) => dayTailMatch rest
    | _ => false

/-- The upload-eligibility test of src/index.js line 306: matching the file
name against the anchored date pattern (four digits, dash, month group,
dash, day group, any character, the letters of `log`), viewed as a Boolean
— the loop only tests the match result's truthiness. -/
def fileNameMatch : List Char → Bool
  | a :: b :: c :: d :: '-' :: rest =>
    a.isDigit && b.isDigit && c.isDigit && d.isDigit && monthTailMatch rest
  | _ => false

/-!
Section: the flush decision (`checkStatus`, src/index.js lines 206–231).

The source lists the buffer directory, returns true when the file count
exceeds `filesLimit`, and otherwise walks the files in order: true when a
file's stat size exceeds `fileSizeLimit` or when now minus birthtime reaches
`fileExpireTime`; false after every file passed.  It only reads directory
entries and stat results — no writes — so the pure model below is exact.
-/

/-- A stat result as `checkStatus` consumes it: `size` in bytes and the
creation time `birthtime` in milliseconds since the epoch. -/
structure FileStat where
  size : Nat
  birthtimeMs : Int
deriving DecidableEq

/-- The engine's upload thresholds as stored by the constructor
(src/index.js lines 101–103): `filesLimit`, `fileSizeLimit` (bytes, already
scaled from KB) and `fileExpireTime` (milliseconds, already scaled from
seconds). -/
structure UploadCfg where
  filesLimit : Nat
  fileSizeLimit : Nat
  fileExpireTime : Int
deriving DecidableEq

/-- The per-file loop of `checkStatus` (src/index.js lines 214–228): a size
above `fileSizeLimit` or an age reaching `fileExpireTime` returns true at
once; otherwise the next file is examined. -/
def checkStatusLoop (cfg : UploadCfg) (nowMs : Int) : List FileStat → Bool
  | [] => false
  | f :: rest =>
    if cfg.fileSizeLimit < f.size then true
    else if cfg.fileExpireTime ≤ nowMs - f.birthtimeMs then true
    else checkStatusLoop cfg nowMs rest

/-- Model of `checkStatus` (src/index.js lines 206–231): the file-count test
of line 210 (strictly more files than `filesLimit`) followed by the per-file
loop. -/
def checkStatus (cfg : UploadCfg) (nowMs : Int) (files : List FileStat) : Bool :=
  if cfg.filesLimit < files.length then true
  else checkStatusLoop cfg nowMs files

/-!
Section: the upload pipeline (`local2Remote`, src/index.js lines 290–345).

Per file the code builds ONE promise over a line-by-line reader:
  * a falsy (blank) line calls resolve immediately (line 314);
  * a line that fails `JSON.parse` is skipped — neither resolve nor reject
    (lines 318–325);
  * a parsed line is pushed to the remote sink, and THAT push's settlement
    is wired to resolve/reject (lines 327–330);
  * a reader error rejects, the reader's end event resolves (lines 331–336).
A promise settles once, with its first resolve or reject; later calls are
ignored, and the line handler keeps running for the remaining emitted lines,
so every parseable record of the file is pushed regardless of how the
promise settled.  After the await resolves, the file is unlinked (line 340);
if it rejects, `local2Remote` throws, the remaining files are not visited
and the file is not unlinked.

The model fixes the schedule the Node event loop produces for a file read in
one chunk: all line events fire, in order, before any push settles, and
pushes settle in the order they were issued.  Under that schedule the
promise settles resolved when the file has any blank line or no parseable
record, and otherwise with the sink's verdict on the FIRST parseable record;
every parseable record is pushed either way.
-/

/-- A buffer-file line as the upload loop classifies it: falsy (blank), a
`JSON.parse` failure, or a parsed record of type `α`. -/
inductive BufLine (α : Type) where
  | blank : BufLine α
  | malformed : BufLine α
  | valid : α → BufLine α
deriving DecidableEq

/-- Whether a line is falsy — the test of line 314. -/
def isBlankLine {α : Type} : BufLine α → Bool
  | BufLine.blank => true
  | _ => false

/-- The record carried by a line, when `JSON.parse` succeeds on it. -/
def lineRecord {α : Type} : BufLine α → Option α
  | BufLine.valid r => some r
  | _ => none

/-- The records a file's line handler pushes to the remote sink: every
parseable line, in file order (the handler runs for every emitted line,
even after the file's promise has settled). -/
def filePushes {α : Type} (lines : List (BufLine α)) : List α :=
  lines.filterMap lineRecord

/-- How the per-file promise settles (true = resolved, so the file is
unlinked; false = rejected, so `local2Remote` throws): the first blank
line's synchronous resolve wins over any push settlement; with no blank
line the first pushed record's sink verdict decides; a file with nothing
pushed resolves at the reader's end event. -/
def fileSettlesOk {α : Type} (sink : α → Bool) (lines : List (BufLine α)) : Bool :=
  if lines.any isBlankLine then true
  else
    match filePushes lines with
    | [] => true
    | r :: _ => sink r

/-- A buffer file as the drain sees it: its directory-entry name and the
lines it contained at read time. -/
structure BufFile (α : Type) where
  name : List Char
  lines : List (BufLine α)
deriving DecidableEq

/-- Failure injection for one engine run, covering every fallible operation
the source performs: the append of line 277, the directory listings of
lines 207 and 294, the stat of line 216 (`none` = the call throws), the
per-file reader error event of line 331, the unlink of line 340, and the
remote sink's per-record verdict of line 328 (`false` = the push rejects). -/
structure RunProfile (α : Type) where
  appendFails : Bool
  statFn : List Char → Option FileStat
  readdirFailsCheck : Bool
  readdirFailsDrain : Bool
  readFails : List Char → Bool
  unlinkFails : List Char → Bool
  sink : α → Bool
  nowMs : Int

/-- A profile on which every local IO operation succeeds; only the sink's
verdicts vary. -/
def reliableProfile {α : Type} (sink : α → Bool) (now : Int)
    (statFn : List Char → Option FileStat) : RunProfile α :=
  ⟨false, statFn, false, false, fun _ => false, fun _ => false, sink, now⟩

/-- Outcome of one `local2Remote` call: the records pushed to the sink in
order, the file names unlinked, and whether the call threw (a rejected
per-file promise or a failed unlink), which its caller `submit` catches. -/
structure DrainResult (α : Type) where
  pushed : List α
  deleted : List (List Char)
  errored : Bool
deriving DecidableEq

/-- The file loop of `local2Remote` (src/index.js lines 305–342): a name
failing the date pattern returns at once — no error, no further file
visited (lines 306–308); a reader error or a rejected first push throws out
of the loop with the file kept; a resolved promise unlinks the file and
continues with the next one. -/
def local2Remote {α : Type} (p : RunProfile α) : List (BufFile α) → DrainResult α
  | [] => ⟨[], [], false⟩
  | f :: rest =>
    if fileNameMatch f.name = false then ⟨[], [], false⟩
    else if p.readFails f.name then ⟨[], [], true⟩
    else
      let ps := filePushes f.lines
      if fileSettlesOk p.sink f.lines then
        if p.unlinkFails f.name then ⟨ps, [], true⟩
        else
          let r := local2Remote p rest
          ⟨ps ++ r.pushed, f.name :: r.deleted, r.errored⟩
      else ⟨ps, [], true⟩

/-- Model of `local2Remote` including its own directory-listing guard
(src/index.js lines 292–301): a failed listing is caught locally and the
call returns with nothing done and no error propagated. -/
def local2RemoteRun {α : Type} (p : RunProfile α) (files : List (BufFile α)) :
    DrainResult α :=
  if p.readdirFailsDrain then ⟨[], [], false⟩ else local2Remote p files

/-!
Section: the scheduler flags and `submit` (src/index.js lines 107, 239–267).

The constructor initialises the property `onSubmitting` to false (line 107).
Inside the async body of `submit`, line 251 reads `onSubmitting` and returns
early when it is true; line 259 writes true to `submitting` — a DIFFERENT
property of the object, which no other line reads or writes; line 265 writes
false to `onSubmitting`, and is skipped by the early return of line 252
because that return leaves the whole async function.
-/

/-- The two flag properties living on the engine object: `onSubmitting`
(initialised line 107, read line 251, written line 265) and `submitting`
(written line 259 and nowhere read). -/
structure SchedFlags where
  onSubmitting : Bool
  submitting : Bool
deriving DecidableEq

/-- The flags after the constructor ran: `onSubmitting` is false (line 107);
`submitting` is not assigned, and reading an unassigned JS property yields
the falsy `undefined`, modelled as false. -/
def initFlags : SchedFlags := ⟨false, false⟩

/-- The guard of line 251: the submit body returns early iff `onSubmitting`
is true at that moment. -/
def flagBlocks (fl : SchedFlags) : Bool := fl.onSubmitting

/-- The write of line 259, executed right before `local2Remote` is awaited:
it sets the property `submitting` to true. -/
def markFlush (fl : SchedFlags) : SchedFlags := ⟨fl.onSubmitting, true⟩

/-- The write of line 265, executed after the try/catch settles (but not
after the early return): it sets `onSubmitting` to false. -/
def clearFlush (fl : SchedFlags) : SchedFlags := ⟨false, fl.submitting⟩

/-- The mutable engine-side world one `submit` run touches: the buffer
directory's files, the remote store's accepted records, and the two flag
properties. -/
structure EngineState (α : Type) where
  files : List (BufFile α)
  remote : List α
  flags : SchedFlags

/-- The effect of `saveLocal` on the buffer directory (src/index.js lines
274–284): append one serialized record as a line of today's file, creating
the file on first append.  (The line written is the record's JSON plus a
newline, which parses back to the same record, hence a `valid` line.) -/
def appendToFile {α : Type} (nameToday : List Char) (r : α) :
    List (BufFile α) → List (BufFile α)
  | [] => [⟨nameToday, [BufLine.valid r]⟩]
  | f :: rest =>
    if f.name = nameToday then ⟨f.name, f.lines ++ [BufLine.valid r]⟩ :: rest
    else f :: appendToFile nameToday r rest

/-- Remove the unlinked files from the directory listing. -/
def removeFiles {α : Type} (deleted : List (List Char)) (files : List (BufFile α)) :
    List (BufFile α) :=
  files.filter fun f => !(deleted.contains f.name)

/-- The per-file loop of `checkStatus` with stat-failure injection: a stat
throw (modelled `none`) aborts the walk with an error, which the catch in
`submit` absorbs. -/
def checkStatusLoopE (cfg : UploadCfg) (nowMs : Int)
    (statFn : List Char → Option FileStat) : List (List Char) → Except Unit Bool
  | [] => Except.ok false
  | n :: rest =>
    match statFn n with
    | none => Except.error ()
    | some st =>
      if cfg.fileSizeLimit < st.size then Except.ok true
      else if cfg.fileExpireTime ≤ nowMs - st.birthtimeMs then Except.ok true
      else checkStatusLoopE cfg nowMs statFn rest

/-- Model of `checkStatus` as `submit` calls it, with listing and stat
failure injection from the profile; an `Except.error` is an exception the
caller's catch absorbs. -/
def checkStatusE {α : Type} (cfg : UploadCfg) (p : RunProfile α)
    (names : List (List Char)) : Except Unit Bool :=
  if p.readdirFailsCheck then Except.error ()
  else if cfg.filesLimit < names.length then Except.ok true
  else checkStatusLoopE cfg p.nowMs p.statFn names

/-- How the async body of `submit` ends: the early return of line 252 (which
skips line 265), normal completion of the try block, or an error absorbed by
the catch of lines 262–264. -/
inductive SubmitEnd where
  | earlyReturn : SubmitEnd
  | completed : SubmitEnd
  | caught : SubmitEnd
deriving DecidableEq

/-- Lines 250–261 of the try block of `submit`, after the optional save: the
flag guard, the `checkStatus` call, and — when it returned true — the write
of line 259 followed by the awaited drain.  Accepted pushes land in the
remote store even when the drain then errors. -/
def submitAfterSave {α : Type} (cfg : UploadCfg) (p : RunProfile α)
    (st : EngineState α) : SubmitEnd × EngineState α :=
  if flagBlocks st.flags then (SubmitEnd.earlyReturn, st)
  else
    match checkStatusE cfg p (st.files.map BufFile.name) with
    | Except.error _ => (SubmitEnd.caught, st)
    | Except.ok false => (SubmitEnd.completed, st)
    | Except.ok true =>
      let dr := local2RemoteRun p st.files
      let st2 : EngineState α :=
        ⟨removeFiles dr.deleted st.files, st.remote ++ dr.pushed.filter p.sink,
          markFlush st.flags⟩
      if dr.errored then (SubmitEnd.caught, st2) else (SubmitEnd.completed, st2)

/-- The try block of `submit` (src/index.js lines 244–261): `saveLocal` when
a record was handed in (a failed append throws into the catch with the
directory unchanged), then `submitAfterSave`. -/
def submitBody {α : Type} (cfg : UploadCfg) (today : List Char) (p : RunProfile α)
    (optData : Option α) (st : EngineState α) : SubmitEnd × EngineState α :=
  match optData with
  | some r =>
    if p.appendFails then (SubmitEnd.caught, st)
    else submitAfterSave cfg p ⟨appendToFile today r st.files, st.remote, st.flags⟩
  | none => submitAfterSave cfg p st

/-- One whole `submit` invocation (src/index.js lines 239–267): the async
body's try/catch followed by line 265, which resets `onSubmitting` on every
path except the early return of line 252.  The function `submit` itself
returns to its caller synchronously, before any of this settles, and never
throws to it. -/
def submitRun {α : Type} (cfg : UploadCfg) (today : List Char) (p : RunProfile α)
    (optData : Option α) (st : EngineState α) : SubmitEnd × EngineState α :=
  match submitBody cfg today p optData st with
  | (SubmitEnd.earlyReturn, s) => (SubmitEnd.earlyReturn, s)
  | (e, s) => (e, ⟨s.files, s.remote, clearFlush s.flags⟩)

/-!
Section: JSON values and serialized length.

The middleware compares the length of the JSON serialization of a body
against `bodySizeLimit` (lines 131 and 162).  The model covers the JSON
values a parsed request or response body can hold and the length of its
canonical serialization; string escaping is modelled for the quote and
backslash characters (each serialized as two characters) — bodies in this
development contain no control characters, whose longer escapes would only
increase lengths.
-/

/-- A JSON value, as the request and response bodies hold after parsing. -/
inductive Json where
  | jnull : Json
  | jbool : Bool → Json
  | jnum : Nat → Json
  | jstr : List Char → Json
  | jarr : List Json → Json
  | jobj : List (List Char × Json) → Json

/-- Length contributed by one character inside a serialized JSON string. -/
def escapedCharLen (c : Char) : Nat := if c = '"' ∨ c = '\\' then 2 else 1

/-- Length of the characters of a JSON string body (quotes excluded). -/
def escapedLen (s : List Char) : Nat := (s.map escapedCharLen).sum

mutual

/-- Length of the canonical JSON serialization of a value. -/
def stringifyLen : Json → Nat
  | Json.jnull => 4
  | Json.jbool b => if b then 4 else 5
  | Json.jnum n => (natToChars n).length
  | Json.jstr s => 2 + escapedLen s
  | Json.jarr xs => 2 + arrLen xs
  | Json.jobj fs => 2 + objLen fs

/-- Length of an array's comma-separated elements. -/
def arrLen : List Json → Nat
  | [] => 0
  | [x] => stringifyLen x
  | x :: y :: xs => stringifyLen x + 1 + arrLen (y :: xs)

/-- Length of an object's comma-separated quoted-key/value members. -/
def objLen : List (List Char × Json) → Nat
  | [] => 0
  | [kv] => 2 + escapedLen kv.1 + 1 + stringifyLen kv.2
  | kv :: kw :: kvs => 2 + escapedLen kv.1 + 1 + stringifyLen kv.2 + 1 + objLen (kw :: kvs)

end

/-- The body size threshold fixed by the constructor (line 97). -/
def bodySizeLimit : Nat := 2048

/-- The body-truncation step of lines 131–133 (request) and 162–164
(response): when the serialized length is at least `bodySizeLimit`, the body
is replaced with an empty object; otherwise kept. -/
def truncBody (b : Json) : Json :=
  if bodySizeLimit ≤ stringifyLen b then Json.jobj [] else b

/-!
Section: the koa middleware (`middleware_koa`, src/index.js lines 119–192).

The middleware builds `optData` with two `Object.assign` calls.  The first
(lines 138–150) assigns `resource`, `operation`, `ip`, a zero `status` and
`createdAt`, `originRequest`; the second (lines 168–175) assigns `userId`,
the final `status` and `originResponse`.  Both always assign every listed
key — `resource` is the resolver's result defaulted to null with the or
operator, so the key is present (holding null) even when the resolver
yields nothing.  The strict loop (lines 178–184) then drops the record,
returning from the middleware (also past the rethrow of lines 189–191),
when some strict key with boolean value true is not an own property of
`optData`; otherwise `submit` receives the record (line 187) and a
downstream error is rethrown.
-/

/-- The keys the first `Object.assign` (lines 138–150) makes own properties
of `optData`. -/
def assign1Keys : List (List Char) :=
  ["resource".data, "operation".data, "ip".data, "status".data,
    "createdAt".data, "originRequest".data]

/-- The keys the second `Object.assign` (lines 168–175) assigns. -/
def assign2Keys : List (List Char) :=
  ["userId".data, "status".data, "originResponse".data]

/-- The effect of `Object.assign` on own-key sets: the target's keys
followed by the source's new ones, in insertion order. -/
def jsAssignKeys (ks ns : List (List Char)) : List (List Char) :=
  ks ++ ns.filter fun k => !(ks.contains k)

/-- The own-property keys of `optData` when the strict loop inspects it:
both assigns have run, unconditionally. -/
def optDataKeys : List (List Char) := jsAssignKeys assign1Keys assign2Keys

/-- The strict loop of lines 178–184: the record is dropped iff some entry
of the strict map has boolean value true and its key is not an own property
of `optData`.  (Entries whose value is not a boolean never drop — the
typeof test of line 180 — so the map is modelled with boolean values.) -/
def strictDrops (strict : List (List Char × Bool)) (keys : List (List Char)) : Bool :=
  strict.any fun kv => kv.2 && !(keys.contains kv.1)

/-- The zero status assigned when the record is constructed at request start
(line 142). -/
def pendingStatus : Int := 0

/-- The status assigned after the downstream handler settled (line 170):
minus one when it threw, one otherwise. -/
def finalStatus (nextThrew : Bool) : Int := if nextThrew then -1 else 1

/-- The per-request inputs the middleware consumes.  `Option` fields model
JS null or undefined results after the source's or-defaulting: a falsy
resolver result has already collapsed to `none`. -/
structure MwInput where
  filterPass : Bool
  url : List Char
  method : List Char
  ip : List Char
  userAgent : Option (List Char)
  reqBody : Json
  resBody : Json
  resourceVal : Option Json
  userIdFirst : Option Json
  userIdSecond : Option Json
  nextThrows : Bool
  errStatus : Option Nat
  ctxStatus : Option Nat
  createdAtMs : Int

/-- The finished `optData` record handed to `submit`, field for field. -/
structure LogRecord where
  resource : Option Json
  operation : List Char
  ip : List Char
  status : Int
  createdAtMs : Int
  reqUrl : List Char
  reqMethod : List Char
  reqUserAgent : List Char
  reqBody : Json
  userId : Option Json
  resStatusCode : Nat
  resBody : Json

/-- The record the two `Object.assign` calls build (lines 138–150 and
168–175), including the body truncations of lines 130–133 and 161–164, the
user-agent defaulting of line 147, the second-chance user lookup of line
166 and the status-code defaulting of line 172. -/
def buildRecord (inp : MwInput) : LogRecord :=
  { resource := inp.resourceVal
    operation := inp.method
    ip := inp.ip
    status := finalStatus inp.nextThrows
    createdAtMs := inp.createdAtMs
    reqUrl := inp.url
    reqMethod := inp.method
    reqUserAgent := match inp.userAgent with
      | some s => s
      | none => "unknown".data
    reqBody := truncBody inp.reqBody
    userId := match inp.userIdFirst with
      | some u => some u
      | none => inp.userIdSecond
    resStatusCode :=
      if inp.nextThrows then
        match inp.errStatus with
        | some s => s
        | none => 500
      else
        match inp.ctxStatus with
        | some s => s
        | none => 404
    resBody := truncBody inp.resBody }

/-- What one middleware invocation does, as seen at its boundary. -/
inductive MwResult where
  | filtered : MwResult
  | dropped : Bool → MwResult
  | submitted : LogRecord → Bool → MwResult

/-- Model of `middleware_koa` (lines 119–192): a failed filter skips logging
entirely (`filtered`); a strict-loop hit returns without submitting
(`dropped b`, where `b` records that a downstream error existed — the early
return swallows it); otherwise the finished record goes to `submit` and a
downstream error is rethrown (`submitted r b`). -/
def middlewareKoa (strict : List (List Char × Bool)) (inp : MwInput) : MwResult :=
  if inp.filterPass = false then MwResult.filtered
  else if strictDrops strict optDataKeys then MwResult.dropped inp.nextThrows
  else MwResult.submitted (buildRecord inp) inp.nextThrows

/-- The middleware followed by the engine-side effect of its `submit` call
(line 187), for one request against buffer state `st`.  The first component
is everything the middleware's caller observes; the second is the engine
state after the detached submit pipeline settles. -/
def middlewareStep (strict : List (List Char × Bool)) (cfg : UploadCfg)
    (today : List Char) (p : RunProfile LogRecord) (inp : MwInput)
    (st : EngineState LogRecord) : MwResult × EngineState LogRecord :=
  match middlewareKoa strict inp with
  | MwResult.submitted r rt =>
    (MwResult.submitted r rt, (submitRun cfg today p (some r) st).2)
  | other => (other, st)

/-!
Section: the constructor's configuration checks (src/index.js lines 77–95).
-/

/-- What the constructor examines before it can throw: whether the user and
resource resolvers are functions (lines 78–84) and whether the database
client is present (lines 92–93; a missing `dbSaver` object itself also
fails that destructuring, which this flag covers). -/
structure CtorOpts where
  getUserIdIsFunction : Bool
  getResourceIsFunction : Bool
  dbClientPresent : Bool
deriving DecidableEq

/-- Whether the constructor throws (lines 78–93). -/
def ctorThrows (o : CtorOpts) : Bool :=
  !o.getUserIdIsFunction || !o.getResourceIsFunction || !o.dbClientPresent

/-!
Section: concrete inputs used by the claim-level evaluations below.
-/

/-- A sink that rejects exactly the record numbered 2. -/
def rejectSecondSink : Nat → Bool := fun r => !(r == 2)

/-- A buffer file of three parseable records, named by a valid date. -/
def threeRecordFile : BufFile Nat :=
  ⟨("2024-5-6.log").data, [BufLine.valid 1, BufLine.valid 2, BufLine.valid 3]⟩

/-- A buffer file of three parseable records and one malformed line. -/
def threeValidOneBadFile : BufFile Nat :=
  ⟨("2024-5-6.log").data,
    [BufLine.valid 10, BufLine.malformed, BufLine.valid 20, BufLine.valid 30]⟩

/-- A buffer file mixing blank lines with parseable and malformed ones. -/
def blankLinesFile : BufFile Nat :=
  ⟨("2024-5-6.log").data,
    [BufLine.valid 10, BufLine.blank, BufLine.malformed, BufLine.valid 20,
      BufLine.valid 30, BufLine.blank]⟩

/-- A well-named one-record file, for the drain-abort witness. -/
def goodFileA : BufFile Nat := ⟨("2024-5-6.log").data, [BufLine.valid 1]⟩

/-- A file whose name fails the date pattern. -/
def badNameFile : BufFile Nat := ⟨("junk.log").data, [BufLine.valid 2]⟩

/-- Another well-named one-record file, listed after the bad one. -/
def goodFileB : BufFile Nat := ⟨("2024-5-7.log").data, [BufLine.valid 3]⟩

/-- The strict map of the claim scenario: `resource` marked strict. -/
def resourceTrueStrict : List (List Char × Bool) := [(("resource").data, true)]

/-- A request whose resource resolver yielded nothing, downstream handler
succeeded, filter passed, tiny bodies. -/
def noResourceInput : MwInput :=
  { filterPass := true
    url := []
    method := []
    ip := []
    userAgent := none
    reqBody := Json.jobj []
    resBody := Json.jobj []
    resourceVal := none
    userIdFirst := none
    userIdSecond := none
    nextThrows := false
    errStatus := none
    ctxStatus := none
    createdAtMs := 0 }

/-- Thresholds high enough that the scenario run triggers no drain. -/
def quietCfg : UploadCfg := ⟨1000, 1000000, 1000000⟩

/-- The buffer-file name of the scenario day. -/
def todayName : List Char := ("2024-5-6.log").data

/-- A string body whose serialization is exactly 2048 characters long: 2046
plain characters plus the two quotes. -/
def boundaryBody : Json := Json.jstr (List.replicate 2046 'a')

/-!
Theorems.  General lemmas about the embedded definitions come first, then
one theorem per claim (with its witness or counterexample where required).
-/

/-- Sanity: names the engine writes and typical malformed names evaluate as
the source regex does, including the unescaped dot. -/
theorem fileNameMatch_samples :
    fileNameMatch (("2024-5-6.log").data) = true ∧
      fileNameMatch (("2024-12-31.log").data) = true ∧
      fileNameMatch (("2024-13-1.log").data) = false ∧
      fileNameMatch (("junk.log").data) = false ∧
      fileNameMatch (("2024-5-6xlog").data) = true := by
  decide

/-- With a total stat, the failure-injecting walk of the files agrees with
the pure per-file loop. -/
theorem checkStatusLoopE_total (cfg : UploadCfg) (now : Int)
    (stats : List Char → FileStat) (names : List (List Char)) :
    checkStatusLoopE cfg now (fun n => some (stats n)) names =
      Except.ok (checkStatusLoop cfg now (names.map stats)) := by
  induction names with
  | nil => rfl
  | cons n rest ih =>
    simp only [checkStatusLoopE, List.map, checkStatusLoop]
    by_cases h1 : cfg.fileSizeLimit < (stats n).size
    · rw [if_pos h1, if_pos h1]
    · rw [if_neg h1, if_neg h1]
      by_cases h2 : cfg.fileExpireTime ≤ now - (stats n).birthtimeMs
      · rw [if_pos h2, if_pos h2]
      · rw [if_neg h2, if_neg h2]
        exact ih

/-- With a total stat and a working directory listing, the failure-injecting
flush decision agrees with the pure `checkStatus` model: the two
transcriptions of lines 206–231 coincide. -/
theorem checkStatusE_reliable {α : Type} (cfg : UploadCfg) (sink : α → Bool)
    (now : Int) (stats : List Char → FileStat) (names : List (List Char)) :
    checkStatusE cfg (reliableProfile sink now (fun n => some (stats n))) names =
      Except.ok (checkStatus cfg now (names.map stats)) := by
  unfold checkStatusE checkStatus reliableProfile
  rw [if_neg (by simp)]
  by_cases h : cfg.filesLimit < names.length
  · rw [if_pos h, if_pos (by simpa using h)]
  · rw [if_neg h, if_neg (by simpa using h)]
    exact checkStatusLoopE_total cfg now stats names

/-- The per-file loop returns true exactly when some file trips the size or
the age threshold. -/
theorem checkStatusLoop_iff (cfg : UploadCfg) (now : Int) (files : List FileStat) :
    checkStatusLoop cfg now files = true ↔
      ∃ f ∈ files, cfg.fileSizeLimit < f.size ∨ cfg.fileExpireTime ≤ now - f.birthtimeMs := by
  induction files with
  | nil => simp [checkStatusLoop]
  | cons f rest ih =>
    simp only [checkStatusLoop]
    by_cases h1 : cfg.fileSizeLimit < f.size
    · simp [h1]
    · rw [if_neg h1]
      by_cases h2 : cfg.fileExpireTime ≤ now - f.birthtimeMs
      · simp [h2]
      · rw [if_neg h2]
        rw [ih]
        constructor
        · rintro ⟨g, hg, hp⟩
          exact ⟨g, List.mem_cons_of_mem f hg, hp⟩
        · rintro ⟨g, hg, hp⟩
          rcases List.mem_cons.1 hg with rfl | hg2
          · exact absurd hp (by tauto)
          · exact ⟨g, hg2, hp⟩

/-- C3.  The flush decision returns true iff the file count exceeds the
configured limit, or some file's size exceeds the size limit, or some
file's age (now minus creation time) reaches the expiry duration; it
returns false exactly when none of these hold.  The model is a pure
function of the listed files' stats, mirroring that the source only reads
the directory and never writes. -/
theorem checkStatus_true_iff (cfg : UploadCfg) (now : Int) (files : List FileStat) :
    checkStatus cfg now files = true ↔
      cfg.filesLimit < files.length ∨
        ∃ f ∈ files, cfg.fileSizeLimit < f.size ∨
          cfg.fileExpireTime ≤ now - f.birthtimeMs := by
  unfold checkStatus
  by_cases h : cfg.filesLimit < files.length
  · simp [h]
  · rw [if_neg h, checkStatusLoop_iff]
    simp [h]

/-- C2 (evaluation of the defect).  The write of line 259 — the only write
meant to mark a flush in progress — does not change the flag the guard of
line 251 reads: on the constructor's state, the guard still evaluates to
false right after the mark, so a timer or event trigger arriving while a
drain is awaited is not turned away and a second drain can start.  The
write does set the (never-read) property of line 259. -/
theorem markFlush_never_blocks :
    flagBlocks (markFlush initFlags) = false ∧
      (∀ fl : SchedFlags, flagBlocks (markFlush fl) = flagBlocks fl) ∧
      (∀ fl : SchedFlags, (markFlush fl).submitting = true) :=
  ⟨rfl, fun _ => rfl, fun _ => rfl⟩

/-- C8.  Errors of the buffering and flushing pipeline are contained: (1)
whatever failure profile the engine runs under — failed append, listing,
stat, read, unlink, or sink rejections — the middleware's outcome toward
its caller for any request is unchanged; (2) a submit run that was not cut
short by the line-252 early return always leaves the in-progress flag
cleared (line 265 runs on the success and the catch path alike), so a
failure does not block future ticks; (3) the constructor throws exactly
when a required collaborator is missing. -/
theorem errors_contained :
    (∀ (strict : List (List Char × Bool)) (cfg : UploadCfg) (today : List Char)
        (p q : RunProfile LogRecord) (inp : MwInput) (st : EngineState LogRecord),
        (middlewareStep strict cfg today p inp st).1 =
          (middlewareStep strict cfg today q inp st).1) ∧
      (∀ (cfg : UploadCfg) (today : List Char) (p : RunProfile LogRecord)
          (optData : Option LogRecord) (st : EngineState LogRecord),
          (submitRun cfg today p optData st).1 ≠ SubmitEnd.earlyReturn →
            ((submitRun cfg today p optData st).2).flags.onSubmitting = false) ∧
      (∀ o : CtorOpts, ctorThrows o = false ↔
          o.getUserIdIsFunction = true ∧ o.getResourceIsFunction = true ∧
            o.dbClientPresent = true) := by
  refine ⟨?_, ?_, ?_⟩
  · intro strict cfg today p q inp st
    cases h : middlewareKoa strict inp <;> simp [middlewareStep, h]
  · intro cfg today p optData st
    unfold submitRun
    rcases hsb : submitBody cfg today p optData st with ⟨e, s⟩
    cases e <;> simp [clearFlush]
  · intro o
    cases o with
    | mk a b c => cases a <;> cases b <;> cases c <;> simp [ctorThrows]

/-- Unfolding step of the digit renderer for a number of two or more digits,
for any positive fuel. -/
theorem natDigitsAux_step (f n : Nat) (hf : f ≠ 0) (h : 10 ≤ n) :
    natDigitsAux f n = natDigitsAux (f - 1) (n / 10) ++ [digitChar (n % 10)] := by
  obtain ⟨g, rfl⟩ : ∃ g, f = g + 1 := ⟨f - 1, by omega⟩
  simp only [natDigitsAux, Nat.add_sub_cancel]
  rw [if_neg (by omega)]

/-- Unfolding of the digit renderer for a single digit, for any positive
fuel. -/
theorem natDigitsAux_base (f n : Nat) (hf : f ≠ 0) (h : n < 10) :
    natDigitsAux f n = [digitChar n] := by
  obtain ⟨g, rfl⟩ : ∃ g, f = g + 1 := ⟨f - 1, by omega⟩
  simp only [natDigitsAux]
  rw [if_pos h]

/-- A four-digit year renders as four digit characters. -/
theorem natToChars_year (y : Nat) (h1 : 1000 ≤ y) (h2 : y < 10000) :
    ∃ k1 k2 k3 k4, k1 < 10 ∧ k2 < 10 ∧ k3 < 10 ∧ k4 < 10 ∧
      natToChars y = [digitChar k1, digitChar k2, digitChar k3, digitChar k4] := by
  refine ⟨y / 10 / 10 / 10, y / 10 / 10 % 10, y / 10 % 10, y % 10,
    by omega, by omega, by omega, by omega, ?_⟩
  have s1 : natToChars y = natDigitsAux y (y / 10) ++ [digitChar (y % 10)] := by
    have := natDigitsAux_step (y + 1) y (by omega) (by omega)
    simpa using this
  have s2 : natDigitsAux y (y / 10) =
      natDigitsAux (y - 1) (y / 10 / 10) ++ [digitChar (y / 10 % 10)] :=
    natDigitsAux_step y (y / 10) (by omega) (by omega)
  have s3 : natDigitsAux (y - 1) (y / 10 / 10) =
      natDigitsAux (y - 1 - 1) (y / 10 / 10 / 10) ++ [digitChar (y / 10 / 10 % 10)] :=
    natDigitsAux_step (y - 1) (y / 10 / 10) (by omega) (by omega)
  have s4 : natDigitsAux (y - 1 - 1) (y / 10 / 10 / 10) =
      [digitChar (y / 10 / 10 / 10)] :=
    natDigitsAux_base (y - 1 - 1) (y / 10 / 10 / 10) (by omega) (by omega)
  rw [s1, s2, s3, s4]
  simp

/-- Digit characters satisfy the regex digit class. -/
theorem digitChar_isDigit (k : Nat) (h : k < 10) : (digitChar k).isDigit = true := by
  interval_cases k <;> decide

/-- Consuming a list's own prefix always succeeds. -/
theorem dropLeading_self_append (p s : List Char) :
    dropLeading p (p ++ s) = some s := by
  induction p with
  | nil => rfl
  | cons c cs ih => simp [dropLeading, ih]

/-- The rendering of a month number 1–12 is one of the month group's
alternatives. -/
theorem natToChars_mem_monthAlts (m : Nat) (h1 : 1 ≤ m) (h2 : m ≤ 12) :
    natToChars m ∈ monthAlts := by
  interval_cases m <;> decide

/-- The rendering of a day number 1–31 is one of the day group's
alternatives. -/
theorem natToChars_mem_dayAlts (d : Nat) (h1 : 1 ≤ d) (h2 : d ≤ 31) :
    natToChars d ∈ dayAlts := by
  interval_cases d <;> decide

/-- C9.  Every buffer-file name the engine's append path produces — the
local calendar date as year, unpadded month and day joined with dashes,
followed by the log extension — matches the upload eligibility pattern of
line 306, so every file the engine itself creates is eligible for a later
drain.  Dates are quantified over the values a JS `Date` yields for a
four-digit year: months 1–12 and days 1–31. -/
theorem saveLocalFileName_matches (y m d : Nat)
    (hy1 : 1000 ≤ y) (hy2 : y < 10000) (hm1 : 1 ≤ m) (hm2 : m ≤ 12)
    (hd1 : 1 ≤ d) (hd2 : d ≤ 31) :
    fileNameMatch (saveLocalFileName y m d) = true := by
  obtain ⟨k1, k2, k3, k4, b1, b2, b3, b4, hy⟩ := natToChars_year y hy1 hy2
  have hshape : saveLocalFileName y m d =
      digitChar k1 :: digitChar k2 :: digitChar k3 :: digitChar k4 :: '-' ::
        (natToChars m ++ '-' :: (natToChars d ++ ['.', 'l', 'o', 'g'])) := by
    unfold saveLocalFileName dateFormat
    rw [hy]
    simp
  rw [hshape]
  simp only [fileNameMatch, digitChar_isDigit k1 b1, digitChar_isDigit k2 b2,
    digitChar_isDigit k3 b3, digitChar_isDigit k4 b4, Bool.true_and]
  unfold monthTailMatch
  rw [List.any_eq_true]
  refine ⟨natToChars m, natToChars_mem_monthAlts m hm1 hm2, ?_⟩
  rw [dropLeading_self_append]
  show dayTailMatch (natToChars d ++ ['.', 'l', 'o', 'g']) = true
  unfold dayTailMatch
  rw [List.any_eq_true]
  refine ⟨natToChars d, natToChars_mem_dayAlts d hd1 hd2, ?_⟩
  rw [dropLeading_self_append]
  rfl

/-- C9 witness: a concrete date, evaluated through the theorem. -/
theorem saveLocalFileName_matches_witness :
    fileNameMatch (saveLocalFileName 2024 5 6) = true :=
  saveLocalFileName_matches 2024 5 6 (by decide) (by decide) (by decide)
    (by decide) (by decide) (by decide)

/-- C1 (evaluation of the defect).  A three-record file drained against a
sink that rejects the second record: because the per-file promise resolves
with the FIRST push's settlement and ignores the later rejection, the drain
reports no error and unlinks the file even though record 2 was never
accepted.  The claim's scenario — the file survives for a later drain when
the sink rejects its second line — does not hold on the code. -/
theorem drain_deletes_despite_rejection :
    rejectSecondSink 2 = false ∧
      local2RemoteRun (reliableProfile rejectSecondSink 0 fun _ => none)
          [threeRecordFile] =
        ⟨[1, 2, 3], [("2024-5-6.log").data], false⟩ := by
  exact ⟨rfl, rfl⟩

/-- C4.  Within one well-named buffer file and a sink that accepts its
records, blank lines and malformed lines are tolerated and skipped without
aborting the file: the drain pushes exactly the parseable records, in
order, reports no error, and unlinks the file.  (A blank line can only
resolve the file's promise earlier; the line handler still pushes every
parseable record.) -/
theorem drain_skips_malformed (α : Type) (name : List Char)
    (lines : List (BufLine α)) (sink : α → Bool) (now : Int)
    (statFn : List Char → Option FileStat)
    (hname : fileNameMatch name = true)
    (hsink : ∀ r ∈ filePushes lines, sink r = true) :
    local2RemoteRun (reliableProfile sink now statFn) [⟨name, lines⟩] =
      ⟨filePushes lines, [name], false⟩ := by
  unfold local2RemoteRun reliableProfile
  rw [if_neg (by simp)]
  show local2Remote _ [⟨name, lines⟩] = _
  unfold local2Remote
  rw [if_neg (by simp [hname])]
  rw [if_neg (by simp)]
  have hsettle : fileSettlesOk sink lines = true := by
    unfold fileSettlesOk
    by_cases hb : lines.any isBlankLine = true
    · rw [if_pos hb]
    · rw [if_neg hb]
      cases h : filePushes lines with
      | nil => rfl
      | cons r t =>
        exact hsink r (by rw [h]; exact List.mem_cons_self r t)
  simp [hsettle, local2Remote]

/-- C4 witness: the claim's scenario — three parseable records and one
malformed line, an accepting sink — delivers the three records, skips the
malformed line and deletes the file; likewise with blank lines mixed in. -/
theorem drain_skips_malformed_witness :
    (local2RemoteRun (reliableProfile (fun _ => true) 0 fun _ => none)
        [threeValidOneBadFile] =
      ⟨[10, 20, 30], [("2024-5-6.log").data], false⟩) ∧
      (local2RemoteRun (reliableProfile (fun _ => true) 0 fun _ => none)
          [blankLinesFile] =
        ⟨[10, 20, 30], [("2024-5-6.log").data], false⟩) := by
  constructor
  · exact drain_skips_malformed Nat (("2024-5-6.log").data)
      threeValidOneBadFile.lines (fun _ => true) 0 (fun _ => none)
      (by decide) (fun r hr => rfl)
  · exact drain_skips_malformed Nat (("2024-5-6.log").data)
      blankLinesFile.lines (fun _ => true) 0 (fun _ => none)
      (by decide) (fun r hr => rfl)

/-- C5.  A buffer file whose name fails the date pattern aborts the
remainder of that drain call without raising an error: the drain of any
listing that reaches the bad name behaves exactly as if the listing ended
there — neither the bad file nor any later file is read, pushed from, or
deleted — and a drain starting at the bad file does nothing and reports no
error. -/
theorem drain_stops_at_bad_name (α : Type) (p : RunProfile α)
    (pre post : List (BufFile α)) (bad : BufFile α)
    (h : fileNameMatch bad.name = false) :
    local2Remote p (pre ++ bad :: post) = local2Remote p pre ∧
      local2Remote p (bad :: post) = ⟨[], [], false⟩ := by
  constructor
  · induction pre with
    | nil =>
      show local2Remote p (bad :: post) = local2Remote p []
      unfold local2Remote
      rw [if_pos h]
    | cons f rest ih =>
      show local2Remote p (f :: (rest ++ bad :: post)) = local2Remote p (f :: rest)
      unfold local2Remote
      rw [ih]
  · unfold local2Remote
    rw [if_pos h]

/-- C5 witness: with a working profile, a drain over a good file, a
badly-named file and another good file equals the drain over the good file
alone — the second and third files are untouched and no error is raised. -/
theorem drain_stops_at_bad_name_witness :
    local2Remote (reliableProfile (fun _ => true) 0 fun _ => none)
        [goodFileA, badNameFile, goodFileB] =
      local2Remote (reliableProfile (fun _ => true) 0 fun _ => none) [goodFileA] :=
  (drain_stops_at_bad_name Nat (reliableProfile (fun _ => true) 0 fun _ => none)
    [goodFileA] [goodFileB] badNameFile (by decide)).1

/-- Inversion of the middleware: a submitted result is the built record with
the downstream-error bit, and both guards passed. -/
theorem middlewareKoa_submitted (strict : List (List Char × Bool)) (inp : MwInput)
    (r : LogRecord) (rt : Bool)
    (h : middlewareKoa strict inp = MwResult.submitted r rt) :
    r = buildRecord inp ∧ rt = inp.nextThrows ∧ inp.filterPass = true ∧
      strictDrops strict optDataKeys = false := by
  unfold middlewareKoa at h
  by_cases h1 : inp.filterPass = false
  · rw [if_pos h1] at h
    exact absurd h (by simp)
  · rw [if_neg h1] at h
    by_cases h2 : strictDrops strict optDataKeys
    · rw [if_pos h2] at h
      exact absurd h (by simp)
    · rw [if_neg h2] at h
      have hr : r = buildRecord inp ∧ rt = inp.nextThrows := by
        cases h
        exact ⟨rfl, rfl⟩
      exact ⟨hr.1, hr.2, by simpa using h1, by simpa using h2⟩

/-- The strict loop never fires on the key of the claim scenario: the
resource key is always an own property of the finished record. -/
theorem strictDrops_resource_false :
    strictDrops resourceTrueStrict optDataKeys = false := by
  decide

/-- C6 counterexample.  With the strict map marking `resource` and a request
whose resource resolver yields nothing, the middleware still submits the
record (the resource key is present, holding null, so the own-property test
passes), and the detached submit appends it to today's buffer file: the
record IS appended, contradicting the claim that it never is. -/
theorem strict_resource_not_dropped :
    noResourceInput.resourceVal = none ∧
      middlewareKoa resourceTrueStrict noResourceInput =
        MwResult.submitted (buildRecord noResourceInput) false ∧
      (submitRun quietCfg todayName
            (reliableProfile (fun _ => true) 0 fun _ => some ⟨0, 0⟩)
            (some (buildRecord noResourceInput))
            ⟨[], [], initFlags⟩).2.files =
        [⟨todayName, [BufLine.valid (buildRecord noResourceInput)]⟩] := by
  exact ⟨rfl, rfl, rfl⟩

/-- C6 (amended).  A finished record is dropped by the strict policy iff
some strict entry with boolean value true names a key that is not among the
record's own properties; since both assigns always run, those own
properties are the fixed eight keys, the resource key among them — so with
the strict map of the claim scenario a record that passed the filter is
always submitted, even when its resource resolver yielded nothing. -/
theorem strict_drop_characterisation :
    (∀ (strict : List (List Char × Bool)) (inp : MwInput) (b : Bool),
        middlewareKoa strict inp = MwResult.dropped b ↔
          inp.filterPass = true ∧ b = inp.nextThrows ∧
            ∃ kv ∈ strict, kv.2 = true ∧ kv.1 ∉ optDataKeys) ∧
      (∀ inp : MwInput, inp.filterPass = true →
          middlewareKoa resourceTrueStrict inp =
            MwResult.submitted (buildRecord inp) inp.nextThrows) := by
  constructor
  · intro strict inp b
    unfold middlewareKoa
    by_cases h1 : inp.filterPass = false
    · rw [if_pos h1]
      simp [h1]
    · rw [if_neg h1]
      have hdrop : strictDrops strict optDataKeys = true ↔
          ∃ kv ∈ strict, kv.2 = true ∧ kv.1 ∉ optDataKeys := by
        unfold strictDrops
        rw [List.any_eq_true]
        constructor
        · rintro ⟨kv, hkv, hp⟩
          rw [Bool.and_eq_true, Bool.not_eq_true'] at hp
          refine ⟨kv, hkv, hp.1, ?_⟩
          intro hmem
          rw [← List.elem_iff] at hmem
          rw [show optDataKeys.elem kv.1 = optDataKeys.contains kv.1 from rfl, hp.2] at hmem
          cases hmem
        · rintro ⟨kv, hkv, hv, hnm⟩
          refine ⟨kv, hkv, ?_⟩
          rw [Bool.and_eq_true, Bool.not_eq_true']
          refine ⟨hv, ?_⟩
          rw [← Bool.not_eq_true,
            show optDataKeys.contains kv.1 = optDataKeys.elem kv.1 from rfl,
            List.elem_iff]
          exact hnm
      by_cases h2 : strictDrops strict optDataKeys
      · rw [if_pos h2]
        simp only [MwResult.dropped.injEq]
        constructor
        · intro hb
          exact ⟨by simpa using h1, hb.symm, hdrop.1 h2⟩
        · intro hb
          exact hb.2.1.symm
      · rw [if_neg h2]
        constructor
        · intro hcon
          exact absurd hcon (by simp)
        · rintro ⟨hf, hb, hex⟩
          exact absurd (hdrop.2 hex) h2
  · intro inp hf
    unfold middlewareKoa
    rw [if_neg (by simp [hf]), strictDrops_resource_false]
    simp

/-- C7 counterexample.  A response body whose serialization is exactly 2048
characters long — the configured limit, hence NOT exceeding it — is still
replaced with an empty object, because the source compares with
greater-or-equal: the claim's boundary case (at the limit, recorded
unchanged) fails on the code. -/
theorem boundary_body_truncated :
    stringifyLen boundaryBody = bodySizeLimit ∧
      truncBody boundaryBody = Json.jobj [] ∧ boundaryBody ≠ Json.jobj [] := by
  have hrep : ∀ n : Nat, escapedLen (List.replicate n 'a') = n := by
    intro n
    induction n with
    | zero => rfl
    | succ k ih =>
      rw [List.replicate_succ]
      show escapedCharLen 'a' + escapedLen (List.replicate k 'a') = k + 1
      rw [ih, show escapedCharLen 'a' = 1 from rfl]
      omega
  have hlen : stringifyLen boundaryBody = 2048 := by
    show 2 + escapedLen (List.replicate 2046 'a') = 2048
    rw [hrep 2046]
  refine ⟨hlen, ?_, fun hcon =>
    Json.noConfusion (show Json.jstr (List.replicate 2046 'a') = Json.jobj [] from hcon)⟩
  unfold truncBody
  rw [hlen]
  rfl

/-- C7 (amended).  For every record the middleware submits, the recorded
request and response bodies are the incoming ones exactly when their
serialized length is strictly below the 2048-character limit; a body whose
serialized length is at or above the limit is replaced by an empty object.
(The source compares with greater-or-equal, so the boundary case 2048 is
replaced, not kept.) -/
theorem body_truncation_threshold (strict : List (List Char × Bool))
    (inp : MwInput) (r : LogRecord) (rt : Bool)
    (h : middlewareKoa strict inp = MwResult.submitted r rt) :
    (r.reqBody = inp.reqBody ↔ stringifyLen inp.reqBody < bodySizeLimit) ∧
      (r.resBody = inp.resBody ↔ stringifyLen inp.resBody < bodySizeLimit) ∧
      (bodySizeLimit ≤ stringifyLen inp.reqBody → r.reqBody = Json.jobj []) ∧
      (bodySizeLimit ≤ stringifyLen inp.resBody → r.resBody = Json.jobj []) := by
  obtain ⟨rfl, -, -, -⟩ := middlewareKoa_submitted strict inp r rt h
  have key : ∀ b : Json, (truncBody b = b ↔ stringifyLen b < bodySizeLimit) ∧
      (bodySizeLimit ≤ stringifyLen b → truncBody b = Json.jobj []) := by
    intro b
    unfold truncBody
    by_cases hb : bodySizeLimit ≤ stringifyLen b
    · rw [if_pos hb]
      refine ⟨?_, fun _ => rfl⟩
      constructor
      · intro he
        have h2 : stringifyLen b = 2 := by
          rw [← he]
          rfl
        rw [h2] at hb
        exact absurd hb (by decide)
      · intro hlt
        omega
    · rw [if_neg hb]
      exact ⟨iff_of_true rfl (by omega), fun hc => absurd hc hb⟩
  exact ⟨(key inp.reqBody).1, (key inp.resBody).1, (key inp.reqBody).2,
    (key inp.resBody).2⟩

/-- C7 witness: on the scenario request (small bodies) the submitted record
keeps both bodies unchanged, via the theorem at a concrete input. -/
theorem body_truncation_threshold_witness :
    (buildRecord noResourceInput).reqBody = noResourceInput.reqBody ∧
      (buildRecord noResourceInput).resBody = noResourceInput.resBody := by
  have h := body_truncation_threshold [] noResourceInput
    (buildRecord noResourceInput) false rfl
  exact ⟨h.1.mpr (by decide), h.2.1.mpr (by decide)⟩

/-- C10.  Every record the middleware hands to `submit` carries the final
outcome status written by the second assign — minus one exactly when the
downstream handler threw, one otherwise — and never the pending zero status
the record was constructed with. -/
theorem submitted_status_final (strict : List (List Char × Bool)) (inp : MwInput)
    (r : LogRecord) (rt : Bool)
    (h : middlewareKoa strict inp = MwResult.submitted r rt) :
    r.status ≠ pendingStatus ∧ (r.status = -1 ∨ r.status = 1) ∧
      r.status = finalStatus inp.nextThrows ∧
      (r.status = -1 ↔ inp.nextThrows = true) := by
  obtain ⟨rfl, -, -, -⟩ := middlewareKoa_submitted strict inp r rt h
  rw [show (buildRecord inp).status = finalStatus inp.nextThrows from rfl]
  unfold finalStatus pendingStatus
  cases hn : inp.nextThrows <;> norm_num

/-- C10 witness: the scenario record (downstream succeeded) carries status
one, via the theorem at a concrete input. -/
theorem submitted_status_final_witness :
    (buildRecord noResourceInput).status = 1 := by
  have h := submitted_status_final [] noResourceInput
    (buildRecord noResourceInput) false rfl
  have h3 := h.2.2.1
  simpa using h3

end RestLog
